import Mathlib

/-!
Verification of the Raft-with-leases consensus core (`RAFT_Node.py`, with the
sibling variant `RAFT_Node_grpc.py.py`) against its natural-language
specification.

The Python node state and its handlers are shallowly embedded as pure Lean
functions.  Python strings are modelled as `List Char`; Python `str.split(" ")`,
`str.strip()`, `" ".join(..)`, `str(n)` and `int(s)` are modelled by the
executable functions `pySplit`, `pyStrip`, `pyJoinSp`, `natToChars` and
`pyInt?` below.  Python exceptions (`ValueError` from `max(∅)`, from unpacking
and from `int("None")`, and `IndexError` from out-of-range list access) are
modelled by `Except PyErr`.
-/

namespace Raft

/-- A Python string, modelled as its list of characters. -/
abbrev PyStr := List Char

/-- Python `ValueError` / `IndexError`, the two exceptions the modelled code can raise. -/
inductive PyErr where
  | valueError
  | indexError
deriving DecidableEq, Repr

instance {ε α : Type} [DecidableEq ε] [DecidableEq α] : DecidableEq (Except ε α)
  | Except.ok a, Except.ok b =>
    if h : a = b then Decidable.isTrue (by rw [h]) else Decidable.isFalse (by simp [h])
  | Except.ok _, Except.error _ => Decidable.isFalse (by simp)
  | Except.error _, Except.ok _ => Decidable.isFalse (by simp)
  | Except.error e, Except.error f =>
    if h : e = f then Decidable.isTrue (by rw [h]) else Decidable.isFalse (by simp [h])

/-- Python `s.split(" ")`: split at every single space character; consecutive
separators produce empty fields, and the result is never the empty list. -/
def pySplit : PyStr → List PyStr
  | [] => [[]]
  | c :: rest =>
    if c = ' ' then [] :: pySplit rest
    else
      match pySplit rest with
      | t :: ts => (c :: t) :: ts
      | [] => [[c]]

/-- Python `s.strip()` for the strings at hand (whitespace is only the space
character in the modelled file contents). -/
def pyStrip (s : PyStr) : PyStr :=
  ((s.dropWhile (· = ' ')).reverse.dropWhile (· = ' ')).reverse

/-- Python `" ".join(parts)`. -/
def pyJoinSp : List PyStr → PyStr
  | [] => []
  | [t] => t
  | t :: rest => t ++ ' ' :: pyJoinSp rest

/-- The decimal digit characters used by Python `str` on a nonnegative int. -/
def digitChar : Nat → Char
  | 0 => '0' | 1 => '1' | 2 => '2' | 3 => '3' | 4 => '4'
  | 5 => '5' | 6 => '6' | 7 => '7' | 8 => '8' | _ => '9'

/-- Fuel-driven digit expansion of `n` (most significant first); the fuel is
only there to make the recursion structural, `n` itself is always enough. -/
def natToCharsAux : Nat → Nat → PyStr
  | 0, _ => []
  | fuel + 1, n => if n = 0 then [] else natToCharsAux fuel (n / 10) ++ [digitChar (n % 10)]

/-- Python `str(n)` for a nonnegative int `n`. -/
def natToChars (n : Nat) : PyStr :=
  if n = 0 then ['0'] else natToCharsAux n n

/-- Python `str(x)` for `x` an optional node id (`str(None) = "None"`). -/
def optToChars : Option Nat → PyStr
  | some n => natToChars n
  | none => ['N', 'o', 'n', 'e']

/-- Python `int(s)` on a token: succeeds exactly on nonempty all-digit tokens
(the modelled code never feeds it signs or spaces), `None`/garbage raise
`ValueError`, modelled as `none`. -/
def pyInt? (cs : PyStr) : Option Nat :=
  if cs ≠ [] ∧ cs.all Char.isDigit then
    some (cs.foldl (fun a c => a * 10 + (c.toNat - 48)) 0)
  else none

/- ### Round-trip facts about the string primitives -/

theorem pySplit_ne_nil (s : PyStr) : pySplit s ≠ [] := by
  induction s with
  | nil => simp [pySplit]
  | cons c rest ih =>
    by_cases hc : c = ' '
    · simp [pySplit, hc]
    · simp only [pySplit, if_neg hc]
      cases h : pySplit rest with
      | nil => exact absurd h ih
      | cons t ts => simp

theorem pySplit_no_space (t : PyStr) (ht : ∀ c ∈ t, c ≠ ' ') : pySplit t = [t] := by
  induction t with
  | nil => simp [pySplit]
  | cons c rest ih =>
    have hc : c ≠ ' ' := ht c (by simp)
    have := ih (fun c hc => ht c (by simp [hc]))
    simp [pySplit, hc, this]

theorem pySplit_token_append (t rest : PyStr) (ht : ∀ c ∈ t, c ≠ ' ') :
    pySplit (t ++ ' ' :: rest) = t :: pySplit rest := by
  induction t with
  | nil => simp [pySplit]
  | cons c t' ih =>
    have hc : c ≠ ' ' := ht c (by simp)
    have h' := ih (fun c hc => ht c (by simp [hc]))
    simp only [List.cons_append, pySplit, if_neg hc, List.append_eq, h']

theorem digitChar_isDigit (d : Nat) (hd : d < 10) : (digitChar d).isDigit = true := by
  interval_cases d <;> decide

theorem digitChar_toNat (d : Nat) (hd : d < 10) : (digitChar d).toNat - 48 = d := by
  interval_cases d <;> decide

theorem digitChar_ne_space (d : Nat) (hd : d < 10) : digitChar d ≠ ' ' := by
  interval_cases d <;> decide

theorem natToCharsAux_all_digits (fuel n : Nat) :
    ∀ c ∈ natToCharsAux fuel n, c.isDigit = true := by
  induction fuel generalizing n with
  | zero => simp [natToCharsAux]
  | succ fuel ih =>
    intro c hc
    simp only [natToCharsAux] at hc
    by_cases hn : n = 0
    · simp [hn] at hc
    · rw [if_neg hn, List.mem_append] at hc
      rcases hc with hc | hc
      · exact ih _ c hc
      · simp at hc
        subst hc
        exact digitChar_isDigit _ (Nat.mod_lt _ (by omega))

theorem natToCharsAux_ne_nil (fuel n : Nat) (hn : 0 < n) (hf : n ≤ fuel) :
    natToCharsAux fuel n ≠ [] := by
  cases fuel with
  | zero => omega
  | succ fuel =>
    simp only [natToCharsAux, if_neg (by omega : ¬ n = 0)]
    simp

/-- Evaluating the accumulator fold of `pyInt?` over the digit expansion of `n`. -/
theorem natToCharsAux_foldl (fuel n : Nat) (hf : n ≤ fuel) : ∀ a : Nat,
    (natToCharsAux fuel n).foldl (fun a c => a * 10 + (c.toNat - 48)) a =
      a * 10 ^ (natToCharsAux fuel n).length + n := by
  induction fuel generalizing n with
  | zero =>
    intro a
    have : n = 0 := by omega
    simp [natToCharsAux, this]
  | succ fuel ih =>
    intro a
    by_cases hn : n = 0
    · simp [natToCharsAux, hn]
    · have hdiv : n / 10 ≤ fuel := by omega
      simp only [natToCharsAux, if_neg hn, List.foldl_append, List.length_append,
        List.foldl_cons, List.foldl_nil, List.length_cons, List.length_nil]
      rw [ih (n / 10) hdiv a, digitChar_toNat _ (Nat.mod_lt _ (by omega))]
      have := Nat.div_add_mod n 10
      rw [pow_succ]
      ring_nf
      omega

theorem natToChars_all_digits (n : Nat) : ∀ c ∈ natToChars n, c.isDigit = true := by
  intro c hc
  unfold natToChars at hc
  by_cases hn : n = 0
  · simp [hn] at hc; subst hc; decide
  · rw [if_neg hn] at hc
    exact natToCharsAux_all_digits n n c hc

theorem natToChars_ne_space (n : Nat) : ∀ c ∈ natToChars n, c ≠ ' ' := by
  intro c hc heq
  have := natToChars_all_digits n c hc
  subst heq
  simp at this

/-- Python `int(str(n)) = n` for nonnegative ints. -/
theorem pyInt?_natToChars (n : Nat) : pyInt? (natToChars n) = some n := by
  by_cases hn : n = 0
  · subst hn; decide
  · have hne := natToCharsAux_ne_nil n n (by omega) le_rfl
    unfold pyInt? natToChars
    rw [if_neg hn, if_pos]
    · rw [natToCharsAux_foldl n n le_rfl 0]
      simp
    · refine ⟨hne, ?_⟩
      rw [List.all_eq_true]
      intro c hc
      exact natToCharsAux_all_digits n n c hc

/- ### Data model (`RaftNode.__init__`, Pseudocode 1/9) -/

/-- The three roles of `self.current_role` (Python strings `"Follower"` etc.). -/
inductive Role where
  | Follower
  | Candidate
  | Leader
deriving DecidableEq, Repr

/-- One log entry, the Python dict `{"term": t, "message": m}`. -/
structure Entry where
  term : Nat
  message : PyStr
deriving DecidableEq, Repr

instance : Inhabited Entry := ⟨⟨0, []⟩⟩

/-- Python dict assignment `d[k] = v` on an association list (update in place,
else append). -/
def dictSet {α β : Type} [DecidableEq α] (d : List (α × β)) (k : α) (v : β) : List (α × β) :=
  if d.any (fun kv => kv.1 = k) then d.map (fun kv => if kv.1 = k then (k, v) else kv)
  else d ++ [(k, v)]

/-- Python `set.add` on a duplicate-free list (`self.votes_received.add(..)`). -/
def insertNew (l : List Nat) (x : Nat) : List Nat :=
  if x ∈ l then l else l ++ [x]

/-- The in-memory state of one `RaftNode`.  `connections` is the peer-id list
after `del self.connections[str(node_id)]` (so it excludes the node itself);
`lease_remaining` models the value `self.lease_timer.remaining()` would return
at the moment a handler reads it (the timer itself is wall-clock state). -/
structure RaftState where
  node_id : Nat
  current_term : Nat
  voted_for : Option Nat
  log : List Entry
  data_truths : List (PyStr × PyStr)
  commit_length : Nat
  current_role : Role
  current_leader : Option Nat
  votes_received : List Nat
  sent_length : List (Nat × Nat)
  acked_length : List (Nat × Nat)
  connections : List Nat
  LEADER_TIME_LEFT : Rat
  MAX_LEASE_TIMER_LEFT : Rat
  lease_remaining : Rat
deriving DecidableEq

/-- The majority expression `math.ceil((len(self.connections) + 1) / 2)` that
appears verbatim in `handle_vote_response`, `handle_log_response` and
`commit_log_entries` (in both variants).  Since `connections` excludes the node
itself, its argument is `N - 1` for a cluster of size `N`. -/
def minAcksOf (numConnections : Nat) : Nat := (numConnections + 1 + 1) / 2

/-- Modelled from the spec: the quorum size `⌈(N+1)/2⌉` for the full cluster
size `N`, the strict-majority threshold stated in §4.4/§4.6 and the glossary. -/
def specQuorum (clusterSize : Nat) : Nat := (clusterSize + 1 + 1) / 2

/- ### Election (Pseudocode 1/9 – 3/9) -/

/-- Lease-expiry step-down (`step_down`): a Leader whose lease timer fired
becomes Follower; the Python code also sets `voted_for = None` and
`current_leader = "None"` while leaving `current_term` unchanged. -/
def step_down (st : RaftState) : RaftState :=
  if st.current_role = Role.Leader then
    { st with current_role := Role.Follower, voted_for := none, current_leader := none }
  else st

/-- Election start (`leader_failed_or_election_timeout`): bump the term, become
Candidate, vote for self, reset `votes_received` to the self-vote (the
broadcast of `VoteRequest` messages is transport, not state). -/
def leader_failed_or_election_timeout (st : RaftState) : RaftState :=
  { st with
    current_term := st.current_term + 1
    current_role := Role.Candidate
    voted_for := some st.node_id
    votes_received := [st.node_id]
    current_leader := none }

/-- The `VoteResponse` message (`"VoteResponse " + id + term + granted + lease`). -/
structure VoteResponse where
  voterId : Nat
  term : Nat
  granted : Bool
  leaseRemainingForVoter : Rat
deriving DecidableEq, Repr

/-- Vote handling (`handle_vote_request`, Pseudocode 2/9): adopt a larger term,
grant iff the candidate's term matches, its log is at least as up to date and
no conflicting vote was cast.  The grant branch replies with
`self.LEADER_TIME_LEFT`, the denial branch with `self.lease_timer.remaining()`. -/
def handle_vote_request (st : RaftState) (cId cTerm cLogLength cLogTerm : Nat) :
    RaftState × VoteResponse :=
  let st :=
    if st.current_term < cTerm then
      { st with current_role := Role.Follower, current_term := cTerm, voted_for := none }
    else st
  let last_term := match st.log.getLast? with
    | some e => e.term
    | none => 0
  let logOk := last_term < cLogTerm ∨ (cLogTerm = last_term ∧ st.log.length ≤ cLogLength)
  if cTerm = st.current_term ∧ logOk ∧ (st.voted_for = none ∨ st.voted_for = some cId) then
    ({ st with voted_for := some cId },
      ⟨st.node_id, st.current_term, true, st.LEADER_TIME_LEFT⟩)
  else
    (st, ⟨st.node_id, st.current_term, false, st.lease_remaining⟩)

/-- The observable actions a vote-response handler performs, in program order:
the `time.sleep(..)` call, the `current_role = "Leader"` assignment, the
`replicate_log` sends and the `broadcast_messages("No-OP")` call. -/
inductive NodeEvent where
  | sleep (d : Rat)
  | becomeLeader
  | replicate (follower : Nat)
  | broadcastReq
deriving DecidableEq, Repr

/-- Whether an event is a `time.sleep` call. -/
def isSleepEvent : NodeEvent → Bool
  | NodeEvent.sleep _ => true
  | _ => false

/-- Leader branch of `broadcast_messages`: append the entry at the current
term, record the self-ack at the new log length. -/
def broadcastLeader (st : RaftState) (msg : PyStr) : RaftState :=
  let log' := st.log ++ [⟨st.current_term, msg⟩]
  { st with log := log', acked_length := dictSet st.acked_length st.node_id log'.length }

/-- Vote-response handling in `RAFT_Node.py` (Pseudocode 3/9).  Returns the new
state together with the ordered list of observable actions: on reaching the
quorum `minAcksOf` the candidate first sleeps `self.LEADER_TIME_LEFT` (the
running max of lease values learned from replies), then assumes leadership,
re-initialises `sent_length`/`acked_length`, replicates to every peer and
broadcasts a `No-OP` entry. -/
def handle_vote_response (st : RaftState) (voterId term : Nat) (granted : Bool)
    (lease_timer_left_according_to_voter : Rat) : RaftState × List NodeEvent :=
  let st := { st with
    LEADER_TIME_LEFT := max st.LEADER_TIME_LEFT lease_timer_left_according_to_voter }
  if st.current_role = Role.Candidate ∧ term = st.current_term ∧ granted = true then
    let st := { st with votes_received := insertNew st.votes_received voterId }
    if minAcksOf st.connections.length ≤ st.votes_received.length then
      let waited := st.LEADER_TIME_LEFT
      let st := { st with
        current_role := Role.Leader
        current_leader := some st.node_id
        sent_length := st.connections.foldl (fun d f => dictSet d f st.log.length) st.sent_length
        acked_length := st.connections.foldl (fun d f => dictSet d f 0) st.acked_length }
      let st := broadcastLeader st ['N', 'o', '-', 'O', 'P']
      (st, NodeEvent.sleep waited :: NodeEvent.becomeLeader ::
        (st.connections.map NodeEvent.replicate ++ [NodeEvent.broadcastReq]))
    else (st, [])
  else if st.current_term < term then
    ({ st with current_role := Role.Follower, current_term := term, voted_for := none }, [])
  else (st, [])

namespace Grpc

/-- Vote-response handling in the sibling `RAFT_Node_grpc.py.py` (lines
415–450): the running max is kept in `MAX_LEASE_TIMER_LEFT`, and on reaching
quorum the candidate becomes Leader immediately — there is no `time.sleep`
call — appends the `No-OP` entry itself, then re-initialises the per-peer
state and replicates. -/
def handle_vote_response (st : RaftState) (voterId term : Nat) (granted : Bool)
    (lease_timer_left_according_to_voter : Rat) : RaftState × List NodeEvent :=
  let st := { st with
    MAX_LEASE_TIMER_LEFT := max st.MAX_LEASE_TIMER_LEFT lease_timer_left_according_to_voter }
  if st.current_role = Role.Candidate ∧ term = st.current_term ∧ granted = true then
    let st := { st with votes_received := insertNew st.votes_received voterId }
    if minAcksOf st.connections.length ≤ st.votes_received.length then
      let st := { st with
        current_role := Role.Leader
        current_leader := some st.node_id
        log := st.log ++ [(⟨st.current_term, ['N', 'o', '-', 'O', 'P']⟩ : Entry)] }
      let st := { st with
        sent_length := st.connections.foldl (fun d f => dictSet d f st.log.length) st.sent_length
        acked_length := st.connections.foldl (fun d f => dictSet d f 0) st.acked_length }
      (st, NodeEvent.becomeLeader :: st.connections.map NodeEvent.replicate)
    else (st, [])
  else if st.current_term < term then
    ({ st with current_role := Role.Follower, current_term := term, voted_for := none }, [])
  else (st, [])

end Grpc

/- ### Log replication (Pseudocode 5/9 – 7/9) -/

/-- The pure log transformation of `append_entries` (identical in both
variants): truncate on a term conflict at the last overlapping index, then
append the missing tail of the suffix.

The appended tail `suffix[len(log) - prefix_len :]` is modelled with natural
subtraction; this matches the Python `for i in range(len(self.log) -
prefix_len, len(suffix))` loop whenever `prefix_len ≤ len(log)`, which every
call site guarantees through the `logOk` guard of `handle_log_request`. -/
def appendEntriesLog (prefix_len : Nat) (suffix log : List Entry) : List Entry :=
  let log :=
    if 0 < suffix.length ∧ prefix_len < log.length then
      let index := min log.length (prefix_len + suffix.length) - 1
      if (log.getD index default).term ≠ (suffix.getD (index - prefix_len) default).term then
        log.take prefix_len
      else log
    else log
  if log.length < prefix_len + suffix.length then
    log ++ suffix.drop (log.length - prefix_len)
  else log

/-- State-machine application of one committed message: Python checks
`message.startswith("SET")` and then unpacks `_, key, value =
message.split(" ")`, raising `ValueError` unless the split has exactly three
fields. -/
def applySET (data : List (PyStr × PyStr)) (msg : PyStr) :
    Except PyErr (List (PyStr × PyStr)) :=
  if msg.take 3 = ['S', 'E', 'T'] then
    match pySplit msg with
    | [_, k, v] => Except.ok (dictSet data k v)
    | _ => Except.error PyErr.valueError
  else Except.ok data

/-- The commit loop of `append_entries`: `for i in range(commit_length,
leader_commit)` reads `self.log[i]` unconditionally, so an index beyond the
log raises `IndexError`. -/
def appendApplyLoop (log : List Entry) (lo hi : Nat) (data : List (PyStr × PyStr)) :
    Except PyErr (List (PyStr × PyStr)) :=
  (List.range' lo (hi - lo)).foldlM
    (fun d j =>
      match log[j]? with
      | none => Except.error PyErr.indexError
      | some e => applySET d e.message)
    data

/-- Follower-side `append_entries(prefix_len, leader_commit, suffix)`: update
the log via `appendEntriesLog`, then if `leader_commit > commit_length` apply
the newly committed range and adopt `leader_commit`.  (The metadata rewrite it
performs at the end is the string built by `writeMetadataAE` below.) -/
def append_entries (prefix_len leader_commit : Nat) (suffix : List Entry)
    (st : RaftState) : Except PyErr RaftState :=
  let log2 := appendEntriesLog prefix_len suffix st.log
  if st.commit_length < leader_commit then
    match appendApplyLoop log2 st.commit_length leader_commit st.data_truths with
    | Except.error e => Except.error e
    | Except.ok data =>
      Except.ok { st with log := log2, data_truths := data, commit_length := leader_commit }
  else Except.ok { st with log := log2 }

/-- The `logOk` check of `handle_log_request` (Pseudocode 6/9). -/
def logOkB (log : List Entry) (prefix_len prefix_term : Nat) : Bool :=
  decide (prefix_len ≤ log.length) &&
    (decide (prefix_len = 0) || decide ((log.getD (prefix_len - 1) default).term = prefix_term))

/-- The `(current_term, log)` effect of delivering one `LogRequest` through
`handle_log_request`: adopt a larger term, then apply `append_entries` exactly
when `term == current_term` and `logOk` hold (the role/leader bookkeeping,
commit application and the reply do not touch the log). -/
def hlrTermLog (term prefix_len prefix_term : Nat) (suffix : List Entry) :
    Nat × List Entry → Nat × List Entry :=
  fun ctLog =>
    let ct' := if ctLog.1 < term then term else ctLog.1
    if term = ct' ∧ logOkB ctLog.2 prefix_len prefix_term = true then
      (ct', appendEntriesLog prefix_len suffix ctLog.2)
    else (ct', ctLog.2)

/- ### Commit advancement (Pseudocode 8/9 – 9/9, `RAFT_Node.py` variant) -/

/-- `acks(length)`: the number of entries of the `acked_length` dict whose
value is at least `length` (`RAFT_Node.py` lines 552–556). -/
def acks (acked_length : List (Nat × Nat)) (length : Nat) : Nat :=
  (acked_length.filter (fun kv => decide (length ≤ kv.2))).length

/-- Python `max` over a nonempty collection, given as head and tail. -/
def pyMaxList (h : Nat) (t : List Nat) : Nat := t.foldl max h

/-- The commit loop of `commit_log_entries`: unlike the one in
`append_entries` it skips indices beyond the log (`if i >= len(self.log):
continue`). -/
def commitApplyLoop (log : List Entry) (lo hi : Nat) (data : List (PyStr × PyStr)) :
    Except PyErr (List (PyStr × PyStr)) :=
  (List.range' lo (hi - lo)).foldlM
    (fun d j =>
      if log.length ≤ j then Except.ok d
      else applySET d (log.getD j default).message)
    data

/-- Leader-side `commit_log_entries` (`RAFT_Node.py` lines 558–585): build
`ready = {i ∈ range(len(log)) : acks(i) ≥ min_acks}`, evaluate `max(ready) + 1`
— which raises `ValueError` when `ready` is empty — and advance
`commit_length` to `c = max(ready) + 1` when `c + 1 > commit_length` and the
entry at `c - 1` carries the current term, applying the range in between. -/
def commit_log_entries (st : RaftState) : Except PyErr RaftState :=
  let min_acks := minAcksOf st.connections.length
  let ready := (List.range st.log.length).filter
    (fun i => decide (min_acks ≤ acks st.acked_length i))
  match ready with
  | [] => Except.error PyErr.valueError
  | h :: t =>
    let c := pyMaxList h t + 1
    if (h :: t : List Nat).length ≠ 0 ∧ st.commit_length < c + 1 ∧
        (st.log.getD (c - 1) default).term = st.current_term then
      match commitApplyLoop st.log st.commit_length c st.data_truths with
      | Except.error e => Except.error e
      | Except.ok data =>
        Except.ok { st with data_truths := data, commit_length := c }
    else Except.ok st

/-- Modelled from the spec (§4.6 `commitAdvance`): `acks(i) = |{p :
ackedLength[p] ≥ i}| + 1` with `p` ranging over the peers and the `+ 1`
counting the leader itself, and `ready = {i ∈ [1, |log|] : acks(i) ≥
⌈(N+1)/2⌉}` for the full cluster size `N`. -/
def specReady (st : RaftState) : List Nat :=
  (List.range' 1 st.log.length).filter
    (fun i => decide (specQuorum (st.connections.length + 1) ≤
      (st.acked_length.filter (fun kv => decide (kv.1 ∈ st.connections) && decide (i ≤ kv.2))).length + 1))

/- ### Persistence and recovery (Pseudocode 1/9, `restarting_node`) -/

/-- The metadata string written at the end of `append_entries`:
`"Commit length <cl> Term <t> Node Voted For ID <vf>"`. -/
def writeMetadataAE (commit_length current_term : Nat) (voted_for : Option Nat) : PyStr :=
  ('C' :: 'o' :: 'm' :: 'm' :: 'i' :: 't' :: ' ' :: 'l' :: 'e' :: 'n' :: 'g' :: 't' :: 'h' :: ' ' :: natToChars commit_length) ++
  (' ' :: 'T' :: 'e' :: 'r' :: 'm' :: ' ' :: natToChars current_term) ++
  (' ' :: 'N' :: 'o' :: 'd' :: 'e' :: ' ' :: 'V' :: 'o' :: 't' :: 'e' :: 'd' :: ' ' :: 'F' :: 'o' :: 'r' :: ' ' :: 'I' :: 'D' :: ' ' :: optToChars voted_for)

/-- The metadata string written at the end of `commit_log_entries`:
`"Commit length <cl> Term <t> Node ID <vf>"`. -/
def writeMetadataCLE (commit_length current_term : Nat) (voted_for : Option Nat) : PyStr :=
  ('C' :: 'o' :: 'm' :: 'm' :: 'i' :: 't' :: ' ' :: 'l' :: 'e' :: 'n' :: 'g' :: 't' :: 'h' :: ' ' :: natToChars commit_length) ++
  (' ' :: 'T' :: 'e' :: 'r' :: 'm' :: ' ' :: natToChars current_term) ++
  (' ' :: 'N' :: 'o' :: 'd' :: 'e' :: ' ' :: 'I' :: 'D' :: ' ' :: optToChars voted_for)

/-- The metadata read of `restarting_node`: split the file on spaces and parse
fields 2 (commit length), 4 (term) and the last one (voted-for) with `int`;
`int("None")` raises `ValueError`, modelled as `none`. -/
def readMetadata (content : PyStr) : Option (Nat × Nat × Nat) :=
  let md := pySplit content
  match pyInt? (md.getD 2 []), pyInt? (md.getD 4 []), pyInt? ((md.getLast?).getD []) with
  | some cl, some t, some vf => some (cl, t, vf)
  | _, _, _ => none

/-- Parsing one `logs.txt` line in `restarting_node`: strip, split on spaces,
the last chunk is the term, the rest re-joined is the message. -/
def parseLogLine (line : PyStr) : Except PyErr Entry :=
  let chunks := pySplit (pyStrip line)
  match pyInt? ((chunks.getLast?).getD []) with
  | none => Except.error PyErr.valueError
  | some t => Except.ok ⟨t, pyJoinSp chunks.dropLast⟩

/-- `restarting_node` (`RAFT_Node.py` lines 121–154): run
`recovery_from_crash` (Follower, empty `votes_received`, zeroed per-peer
state, no leader), read the metadata triple, then rebuild the log from the log
file, applying the `SET` commands of every line whose index `idx` satisfies
`idx <= commit_length` to `data_truths`. -/
def restarting_node (node_id : Nat) (connections : List Nat) (metadata : PyStr)
    (logLines : List PyStr) : Except PyErr RaftState :=
  match readMetadata metadata with
  | none => Except.error PyErr.valueError
  | some (cl, t, vf) =>
    let base : RaftState := {
      node_id := node_id
      current_term := t
      voted_for := some vf
      log := []
      data_truths := []
      commit_length := cl
      current_role := Role.Follower
      current_leader := none
      votes_received := []
      sent_length := connections.map (fun f => (f, 0))
      acked_length := connections.map (fun f => (f, 0))
      connections := connections
      LEADER_TIME_LEFT := 0
      MAX_LEASE_TIMER_LEFT := 7
      lease_remaining := 0 }
    (logLines.enum.foldlM
      (fun st (idxLine : Nat × PyStr) => do
        let e ← parseLogLine idxLine.2
        let st := { st with log := st.log ++ [e] }
        if idxLine.1 ≤ cl then
          let data ← applySET st.data_truths e.message
          pure { st with data_truths := data }
        else pure st)
      base : Except PyErr RaftState)

/- ### Concrete states used by the claim theorems -/

/-- A fresh follower of node id 0 in a three-node cluster `{0, 1, 2}`, as built
by `RaftNode.__init__` (peer maps zeroed, term 0, nothing voted, empty log). -/
def freshFollower : RaftState := {
  node_id := 0
  current_term := 0
  voted_for := none
  log := []
  data_truths := []
  commit_length := 0
  current_role := Role.Follower
  current_leader := none
  votes_received := []
  sent_length := [(1, 0), (2, 0)]
  acked_length := [(1, 0), (2, 0)]
  connections := [1, 2]
  LEADER_TIME_LEFT := 0
  MAX_LEASE_TIMER_LEFT := 7
  lease_remaining := 0 }

/-- Node 0 as leader of term 1, immediately after appending its first entry
(the `No-OP` broadcast recorded the self-ack, no `LogResponse` arrived yet). -/
def leaderNoAcks : RaftState := { freshFollower with
  current_term := 1
  voted_for := some 0
  log := [⟨1, ['N', 'o', '-', 'O', 'P']⟩]
  current_role := Role.Leader
  current_leader := some 0
  votes_received := [0, 1]
  sent_length := [(1, 1), (2, 1)]
  acked_length := [(1, 0), (2, 0), (0, 1)] }

/-- Node 0 as leader of term 1 with an empty log (the state right after
winning an election and before the `No-OP` broadcast runs). -/
def leaderEmptyLog : RaftState := { leaderNoAcks with
  log := []
  sent_length := [(1, 0), (2, 0)]
  acked_length := [(1, 0), (2, 0)] }

/-- The states of the `step_down` double-vote trace for claim C2: node 0 starts
the term-1 election, wins it with node 1's vote, then its lease timer fires. -/
def c2Candidate : RaftState := leader_failed_or_election_timeout freshFollower

/-- Node 0 after winning the term-1 election (quorum 2 of 3 reached). -/
def c2Leader : RaftState := (handle_vote_response c2Candidate 1 1 true 0).1

/-- Node 0 after its lease timer fired as term-1 leader. -/
def c2SteppedDown : RaftState := step_down c2Leader

/-- A voter whose stored `LEADER_TIME_LEFT` (5) differs from its live lease
timer remaining (2), used to separate the two reply fields of
`handle_vote_request`. -/
def c9Voter : RaftState := { freshFollower with
  current_term := 1
  LEADER_TIME_LEFT := 5
  lease_remaining := 2 }

/-- A candidate of term 1 one grant away from quorum, used for the leadership
transition traces of claim C3. -/
def c3Candidate : RaftState := { freshFollower with
  current_term := 1
  current_role := Role.Candidate
  voted_for := some 0
  votes_received := [0] }

/-- A follower whose two-entry log is fully committed, about to receive a
conflicting single-entry suffix at prefix 0 (claim C10). -/
def c10Follower : RaftState := { freshFollower with
  log := [⟨1, []⟩, ⟨1, []⟩]
  commit_length := 2 }

/- ### Claim C1 -/

/-- Claim C1: the claim states that `commit_log_entries` advances
`commitLength` to `max ready` exactly when `ready = {i ∈ [1,|log|] : acks(i) ≥
⌈(N+1)/2⌉}` (leader counting itself) is nonempty.  The code disagrees: at
`leaderNoAcks` — a term-1 leader of a 3-node cluster whose single entry no
follower has acked — the spec-side ready set is empty, yet the code commits the
entry, because its `ready` ranges over the 0-based `range(len(log))` and its
threshold is `⌈N/2⌉`. -/
theorem C1_commit_without_quorum :
    specReady leaderNoAcks = [] ∧
    (commit_log_entries leaderNoAcks).toOption.map (fun st => st.commit_length) = some 1 ∧
    acks leaderNoAcks.acked_length 1 = 1 := by decide

/- ### Claim C2 -/

/-- Claim C2: the claim states that no operation clears `votedFor` without
increasing `currentTerm`, so at most one vote is cast per term.  The code
disagrees: in the trace below node 0 casts its term-1 vote for itself when it
starts the election, wins, and then `step_down` clears `voted_for` while
leaving `current_term` at 1 — after which `handle_vote_request` grants the
term-1 vote a second time, to node 2. -/
theorem C2_step_down_revote :
    c2Candidate.current_term = 1 ∧ c2Candidate.voted_for = some 0 ∧
    c2Leader.current_role = Role.Leader ∧ c2Leader.voted_for = some 0 ∧
    c2SteppedDown.current_term = 1 ∧ c2SteppedDown.voted_for = none ∧
    (handle_vote_request c2SteppedDown 2 1 5 1).2.granted = true ∧
    (handle_vote_request c2SteppedDown 2 1 5 1).1.voted_for = some 2 ∧
    (handle_vote_request c2SteppedDown 2 1 5 1).1.current_term = 1 := by decide

/- ### Claim C5 -/

/-- Claim C5: the claim states that with an empty ready set (in particular an
empty log) `commit_log_entries` returns normally and changes nothing.  The
code disagrees: `max(ready) + 1` is evaluated before the `len(ready) != 0`
test, so a leader with an empty log raises `ValueError`. -/
theorem C5_empty_ready_raises :
    commit_log_entries leaderEmptyLog = Except.error PyErr.valueError := by decide

/- ### Claim C7 -/

/-- Claim C7: the claim states that restart replays exactly the committed
prefix `log[0 .. commitLength)` into the data store.  The code disagrees: the
replay condition is `idx <= commit_length`, one entry too many — restarting
with `commitLength = 0` and a single logged `SET x 5` applies that uncommitted
entry.  The Follower/no-leader/empty-votes/zeroed-peer-state part of the claim
does hold, as the evaluation shows. -/
theorem C7_replays_uncommitted_entry :
    (restarting_node 0 [1, 2] (writeMetadataAE 0 1 (some 2)) [('S' :: 'E' :: 'T' :: ' ' :: 'x' :: ' ' :: '5' :: ' ' :: '1' :: [' '])]).toOption.map
      (fun st => (st.commit_length, st.data_truths, st.log)) =
      some (0, [(['x'], ['5'])], [⟨1, ['S', 'E', 'T', ' ', 'x', ' ', '5']⟩]) ∧
    (restarting_node 0 [1, 2] (writeMetadataAE 0 1 (some 2)) [('S' :: 'E' :: 'T' :: ' ' :: 'x' :: ' ' :: '5' :: ' ' :: '1' :: [' '])]).toOption.map
      (fun st => (st.current_role, st.current_leader, st.votes_received)) =
      some (Role.Follower, (none : Option Nat), ([] : List Nat)) ∧
    (restarting_node 0 [1, 2] (writeMetadataAE 0 1 (some 2)) [('S' :: 'E' :: 'T' :: ' ' :: 'x' :: ' ' :: '5' :: ' ' :: '1' :: [' '])]).toOption.map
      (fun st => (st.sent_length, st.acked_length)) =
      some ([(1, 0), (2, 0)], [(1, 0), (2, 0)]) := by
  refine ⟨?_, ?_, ?_⟩ <;> decide

/- ### Claim C3: counterexample (grpc variant) -/

/-- Claim C3, counterexample: the claim states that every candidate reaching
quorum in `handle_vote_response` waits `maxKnownLeaseRemaining` before
becoming Leader.  In the cited `RAFT_Node_grpc.py.py` variant the quorum
branch transitions to Leader immediately: its action trace starts with the
leadership assignment and contains no sleep at all. -/
theorem C3_grpc_no_wait :
    (Grpc.handle_vote_response c3Candidate 1 1 true 5).2.head? = some NodeEvent.becomeLeader ∧
    ((Grpc.handle_vote_response c3Candidate 1 1 true 5).2.filter isSleepEvent) = [] ∧
    (Grpc.handle_vote_response c3Candidate 1 1 true 5).1.current_role = Role.Leader := by decide

/- ### Claim C4: counterexample -/

/-- Claim C4, counterexample: the claim states that the vote and ack
thresholds equal `⌈(N+1)/2⌉` for every cluster size `N`, in particular
`N/2 + 1` for even `N`.  For `N = 4` the code's expression
`ceil((len(connections)+1)/2)` evaluates over the 3 remaining peers to 2,
not 3. -/
theorem C4_even_cluster_threshold :
    minAcksOf (4 - 1) = 2 ∧ specQuorum 4 = 3 ∧ minAcksOf (4 - 1) ≠ specQuorum 4 := by decide

/- ### Claim C6: counterexample -/

/-- Claim C6, counterexample: the claim states the metadata round trip
preserves `(currentTerm, votedFor, commitLength)` for every `votedFor`
including `none`.  With `votedFor = none` the writer emits the token `None`,
and the restart parser's `int(metadata[-1])` raises `ValueError`: the read
yields no triple at all and `restarting_node` fails. -/
theorem C6_none_vote_breaks_restart :
    readMetadata (writeMetadataAE 3 7 none) = none ∧
    restarting_node 0 [1, 2] (writeMetadataAE 3 7 none) [] = Except.error PyErr.valueError := by decide

/- ### Claim C9: counterexample -/

/-- Claim C9, counterexample: the claim states that both reply branches of
`handle_vote_request` carry the voter's current lease-timer remaining.  At
`c9Voter` (stored `LEADER_TIME_LEFT = 5`, live remaining `2`) the grant branch
replies with 5, not with the lease-timer remaining 2. -/
theorem C9_grant_branch_stale_lease :
    (handle_vote_request c9Voter 1 1 5 5).2.granted = true ∧
    (handle_vote_request c9Voter 1 1 5 5).2.leaseRemainingForVoter ≠ c9Voter.lease_remaining := by decide

/- ### Claim C10: counterexample -/

/-- Claim C10, counterexample: the claim states `commitLength ≤ |log|` holds
after every `append_entries`.  Delivering a conflicting one-entry suffix at
prefix 0 to `c10Follower` (two committed term-1 entries) truncates the whole
log and leaves `commit_length = 2 > 1 = |log|`. -/
theorem C10_truncation_below_commit :
    (append_entries 0 0 [⟨2, []⟩] c10Follower).toOption.map
      (fun st => (st.commit_length, st.log.length)) = some (2, 1) ∧
    c10Follower.commit_length ≤ c10Follower.log.length := by decide

/- ### Claim C3: amended theorem (zmq variant) -/

/-- The quorum branch of the zmq `handle_vote_response` yields a trace that
starts with the sleep of the running lease maximum followed by the leadership
assignment; every other branch yields no actions. -/
theorem hvr_trace_shape (st : RaftState) (voterId term : Nat) (granted : Bool) (lease : Rat) :
    (handle_vote_response st voterId term granted lease).2 = [] ∨
    ∃ rest, (handle_vote_response st voterId term granted lease).2 =
      NodeEvent.sleep (max st.LEADER_TIME_LEFT lease) :: NodeEvent.becomeLeader :: rest := by
  simp only [handle_vote_response]
  split
  · split
    · exact Or.inr ⟨_, rfl⟩
    · exact Or.inl rfl
  · split
    · exact Or.inl rfl
    · exact Or.inl rfl

/-- Claim C3 (amended): in `RAFT_Node.py`, whenever `handle_vote_response`
performs the `current_role = "Leader"` assignment, the `time.sleep` of the
running maximum of lease values learned from vote replies occurs strictly
earlier in its action trace — the candidate never starts acting as Leader
before that wait.  (The grpc sibling omits the wait; see the counterexample.) -/
theorem C3_zmq_sleep_precedes_leadership (st : RaftState) (voterId term : Nat)
    (granted : Bool) (lease : Rat) (i : Nat)
    (h : (handle_vote_response st voterId term granted lease).2.get? i =
      some NodeEvent.becomeLeader) :
    ∃ j, j < i ∧ (handle_vote_response st voterId term granted lease).2.get? j =
      some (NodeEvent.sleep (max st.LEADER_TIME_LEFT lease)) := by
  rcases hvr_trace_shape st voterId term granted lease with hs | ⟨rest, hs⟩
  · rw [hs] at h
    simp at h
  · rw [hs] at h ⊢
    cases i with
    | zero => simp at h
    | succ n => exact ⟨0, Nat.succ_pos n, rfl⟩

/-- Witness for C3: at the concrete quorum-reaching state `c3Candidate` the
leadership assignment sits at trace index 1, and the theorem places the sleep
before it. -/
theorem C3_zmq_sleep_witness :
    (handle_vote_response c3Candidate 1 1 true 5).2.get? 1 = some NodeEvent.becomeLeader ∧
    ∃ j, j < 1 ∧ (handle_vote_response c3Candidate 1 1 true 5).2.get? j =
      some (NodeEvent.sleep (max c3Candidate.LEADER_TIME_LEFT 5)) :=
  ⟨by decide, C3_zmq_sleep_precedes_leadership c3Candidate 1 1 true 5 1 (by decide)⟩

/- ### Claim C4: amended theorem -/

/-- Claim C4 (amended): the threshold expression shared by
`handle_vote_response` and `commit_log_entries` equals `⌈N/2⌉ = (N+1)/2` for a
cluster of size `N` (the code evaluates it over the `N - 1` remaining
connections).  It agrees with the spec's `⌈(N+1)/2⌉` exactly for odd `N`; for
even `N` it is `N/2`, one short of a strict majority. -/
theorem C4_threshold_ceil_half (N : Nat) (h : 0 < N) :
    minAcksOf (N - 1) = (N + 1) / 2 ∧
    (N % 2 = 1 → minAcksOf (N - 1) = specQuorum N) ∧
    (N % 2 = 0 → minAcksOf (N - 1) = N / 2 ∧ minAcksOf (N - 1) + 1 = specQuorum N) := by
  unfold minAcksOf specQuorum
  omega

/-- Witness for C4 at the five-node cluster used by the repository. -/
theorem C4_threshold_witness :
    minAcksOf (5 - 1) = (5 + 1) / 2 ∧
    (5 % 2 = 1 → minAcksOf (5 - 1) = specQuorum 5) ∧
    (5 % 2 = 0 → minAcksOf (5 - 1) = 5 / 2 ∧ minAcksOf (5 - 1) + 1 = specQuorum 5) :=
  C4_threshold_ceil_half 5 (by decide)

/- ### Claim C9: amended theorem -/

/-- Claim C9 (amended): `handle_vote_request` always produces exactly one
`VoteResponse`, but the two branches disagree on the lease field: a granted
reply carries the stored `LEADER_TIME_LEFT`, while only a denied reply carries
the voter's live lease-timer remaining. -/
theorem C9_reply_lease_fields (st : RaftState) (cId cTerm cLogLength cLogTerm : Nat) :
    ((handle_vote_request st cId cTerm cLogLength cLogTerm).2.granted = true ∧
     (handle_vote_request st cId cTerm cLogLength cLogTerm).2.leaseRemainingForVoter =
       st.LEADER_TIME_LEFT) ∨
    ((handle_vote_request st cId cTerm cLogLength cLogTerm).2.granted = false ∧
     (handle_vote_request st cId cTerm cLogLength cLogTerm).2.leaseRemainingForVoter =
       st.lease_remaining) := by
  simp only [handle_vote_request]
  split <;> split <;>
    first
      | exact Or.inl ⟨rfl, rfl⟩
      | exact Or.inr ⟨rfl, rfl⟩

/- ### Claim C10: amended theorem -/

/-- After `appendEntriesLog` the log always extends to at least
`prefix_len + |suffix|` entries, provided the prefix fits the old log. -/
theorem appendEntriesLog_length (prefix_len : Nat) (suffix log : List Entry)
    (hp : prefix_len ≤ log.length) :
    prefix_len + suffix.length ≤ (appendEntriesLog prefix_len suffix log).length := by
  simp only [appendEntriesLog]
  split
  · split <;> split <;>
      (try simp only [List.length_append, List.length_drop, List.length_take] at *) <;> omega
  · split <;>
      (try simp only [List.length_append, List.length_drop, List.length_take] at *) <;> omega

/-- Python `max` over a nonempty list picks one of its elements. -/
theorem pyMaxList_mem (h : Nat) (t : List Nat) : pyMaxList h t ∈ h :: t := by
  induction t generalizing h with
  | nil => simp [pyMaxList]
  | cons a t ih =>
    have hm := ih (max h a)
    have hstep : pyMaxList h (a :: t) = pyMaxList (max h a) t := rfl
    rw [hstep]
    simp only [List.mem_cons] at hm ⊢
    rcases hm with hm | hm
    · rcases max_choice h a with hc | hc
      · left; rw [hm, hc]
      · right; left; rw [hm, hc]
    · right; right; exact hm

/-- If the unguarded commit loop of `append_entries` returns normally over a
nonempty range, the whole range indexed into the log. -/
theorem appendApplyLoop_ok_bound (log : List Entry) (lo hi : Nat)
    (data d : List (PyStr × PyStr)) (hlt : lo < hi)
    (h : appendApplyLoop log lo hi data = Except.ok d) : hi ≤ log.length := by
  unfold appendApplyLoop at h
  have key : ∀ (n lo : Nat) (data d : List (PyStr × PyStr)), 0 < n →
      (List.range' lo n).foldlM
        (fun d j =>
          match log[j]? with
          | none => Except.error PyErr.indexError
          | some e => applySET d e.message) data = Except.ok d →
      lo + n ≤ log.length := by
    intro n
    induction n with
    | zero => omega
    | succ n ih =>
      intro lo data d _ hfold
      rw [List.range'_succ, List.foldlM_cons] at hfold
      cases hget : log[lo]? with
      | none =>
        rw [hget] at hfold
        dsimp only at hfold
        dsimp only [bind, Except.bind] at hfold
        exact Except.noConfusion hfold
      | some e =>
        rw [hget] at hfold
        dsimp only at hfold
        have hlo : lo < log.length := (List.getElem?_eq_some_iff.mp hget).1
        cases happ : applySET data e.message with
        | error e2 =>
          rw [happ] at hfold
          dsimp only [bind, Except.bind] at hfold
          exact Except.noConfusion hfold
        | ok data2 =>
          rw [happ] at hfold
          dsimp only [bind, Except.bind] at hfold
          cases n with
          | zero => omega
          | succ m =>
            have := ih (lo + 1) data2 d (Nat.succ_pos m) hfold
            omega
  have := key (hi - lo) lo data d (by omega) h
  omega

/-- Claim C10 (amended): `commitLength ≤ |log|` is preserved by every normal
return of `commit_log_entries`, and by every normal return of
`append_entries` whose request satisfies the follower's `logOk` length check
(`prefixLen ≤ |log|`) and does not announce a log shorter than the already
committed prefix (`commitLength ≤ prefixLen + |suffix|`).  Without the latter
hypothesis a conflicting suffix can truncate the log below `commitLength`
(see the counterexample). -/
theorem C10_commit_bound :
    (∀ (prefix_len leader_commit : Nat) (suffix : List Entry) (st st' : RaftState),
        prefix_len ≤ st.log.length →
        st.commit_length ≤ prefix_len + suffix.length →
        append_entries prefix_len leader_commit suffix st = Except.ok st' →
        st'.commit_length ≤ st'.log.length) ∧
    (∀ st st' : RaftState, st.commit_length ≤ st.log.length →
        commit_log_entries st = Except.ok st' →
        st'.commit_length ≤ st'.log.length) := by
  constructor
  · intro p lc s st st' hp hcs h
    have hlen := appendEntriesLog_length p s st.log hp
    simp only [append_entries] at h
    split at h
    · rename_i hlt
      cases hloop : appendApplyLoop (appendEntriesLog p s st.log) st.commit_length lc
          st.data_truths with
      | error e =>
        rw [hloop] at h
        exact Except.noConfusion h
      | ok data =>
        rw [hloop] at h
        cases h
        have hbound := appendApplyLoop_ok_bound _ _ _ _ _ hlt hloop
        exact hbound
    · cases h
      dsimp only
      omega
  · intro st st' hcl h
    simp only [commit_log_entries] at h
    cases hr : (List.range st.log.length).filter
        (fun i => decide (minAcksOf st.connections.length ≤ acks st.acked_length i)) with
    | nil =>
      rw [hr] at h
      exact Except.noConfusion h
    | cons hd tl =>
      rw [hr] at h
      dsimp only at h
      split at h
      · cases hloop : commitApplyLoop st.log st.commit_length (pyMaxList hd tl + 1)
            st.data_truths with
        | error e =>
          rw [hloop] at h
          exact Except.noConfusion h
        | ok data =>
          rw [hloop] at h
          cases h
          dsimp only
          have hmem := pyMaxList_mem hd tl
          rw [← hr] at hmem
          have hlt := List.mem_range.mp (List.mem_filter.mp hmem).1
          omega
      · cases h
        exact hcl

/-- Witness for C10: both parts applied at concrete states — an `append_entries`
that leaves `leaderNoAcks` unchanged and the `commit_log_entries` run that
advances its commit length to 1. -/
theorem C10_commit_bound_witness :
    leaderNoAcks.commit_length ≤ leaderNoAcks.log.length ∧
    ({ leaderNoAcks with commit_length := 1 } : RaftState).commit_length ≤
      ({ leaderNoAcks with commit_length := 1 } : RaftState).log.length :=
  ⟨C10_commit_bound.1 1 0 [] leaderNoAcks leaderNoAcks (by decide) (by decide) (by decide),
   C10_commit_bound.2 leaderNoAcks { leaderNoAcks with commit_length := 1 }
     (by decide) (by decide)⟩

/- ### Claim C8: idempotence of LogRequest delivery -/

/-- An empty suffix never changes the log (given the `logOk` length bound). -/
theorem appendEntriesLog_nil (p : Nat) (log : List Entry) (hp : p ≤ log.length) :
    appendEntriesLog p [] log = log := by
  simp only [appendEntriesLog]
  rw [if_neg (show ¬(0 < ([] : List Entry).length ∧ p < log.length) by simp)]
  rw [if_neg (show ¬(log.length < p + ([] : List Entry).length) by
    simp only [List.length_nil]; omega)]

/-- After one `appendEntriesLog` with a nonempty suffix, the entry at position
`prefix_len + |suffix| - 1` carries the term of the suffix's last entry. -/
theorem appendEntriesLog_last_term (p : Nat) (s log : List Entry) (hp : p ≤ log.length)
    (hs : s ≠ []) :
    ((appendEntriesLog p s log).getD (p + s.length - 1) default).term =
      (s.getD (s.length - 1) default).term := by
  have hs0 : 0 < s.length := List.length_pos.mpr hs
  have append_case : ∀ l1 : List Entry, p ≤ l1.length → l1.length < p + s.length →
      ((l1 ++ s.drop (l1.length - p)).getD (p + s.length - 1) default).term =
        (s.getD (s.length - 1) default).term := by
    intro l1 h1 h2
    rw [List.getD_eq_getElem?_getD, List.getElem?_append_right (by omega),
      List.getElem?_drop]
    have heq : l1.length - p + (p + s.length - 1 - l1.length) = s.length - 1 := by omega
    rw [heq, ← List.getD_eq_getElem?_getD]
  simp only [appendEntriesLog]
  by_cases hA : 0 < s.length ∧ p < log.length
  · rw [if_pos hA]
    by_cases hB : (log.getD (min log.length (p + s.length) - 1) default).term ≠
        (s.getD (min log.length (p + s.length) - 1 - p) default).term
    · rw [if_pos hB]
      have hl1 : (log.take p).length = p := by rw [List.length_take]; omega
      rw [if_pos (show (log.take p).length < p + s.length by rw [hl1]; omega)]
      exact append_case _ (by rw [hl1]) (by rw [hl1]; omega)
    · rw [if_neg hB]
      push_neg at hB
      by_cases hC : log.length < p + s.length
      · rw [if_pos hC]
        exact append_case log hp hC
      · rw [if_neg hC]
        have hidx : min log.length (p + s.length) - 1 = p + s.length - 1 := by omega
        rw [hidx] at hB
        have hidx2 : p + s.length - 1 - p = s.length - 1 := by omega
        rw [hidx2] at hB
        exact hB
  · rw [if_neg hA]
    have hpl : log.length = p := by omega
    rw [if_pos (show log.length < p + s.length by omega)]
    exact append_case log hp (by omega)

/-- A log that already contains the suffix at the right place — long enough
and agreeing on the last overlapping term — is untouched by `appendEntriesLog`. -/
theorem appendEntriesLog_stable (p : Nat) (s log' : List Entry)
    (hlen : p + s.length ≤ log'.length) (hs0 : 0 < s.length)
    (hterm : (log'.getD (p + s.length - 1) default).term =
      (s.getD (s.length - 1) default).term) :
    appendEntriesLog p s log' = log' := by
  simp only [appendEntriesLog]
  have hA : 0 < s.length ∧ p < log'.length := ⟨hs0, by omega⟩
  rw [if_pos hA]
  have hidx : min log'.length (p + s.length) - 1 = p + s.length - 1 := by omega
  rw [hidx]
  have hidx2 : p + s.length - 1 - p = s.length - 1 := by omega
  rw [hidx2]
  have hcond : ¬ ((log'.getD (p + s.length - 1) default).term ≠
      (s.getD (s.length - 1) default).term) := fun hne => hne hterm
  rw [if_neg hcond]
  have hfin : ¬ (log'.length < p + s.length) := by omega
  rw [if_neg hfin]

/-- The log transformation of `append_entries` is idempotent. -/
theorem appendEntriesLog_idem (p : Nat) (s log : List Entry) (hp : p ≤ log.length) :
    appendEntriesLog p s (appendEntriesLog p s log) = appendEntriesLog p s log := by
  rcases eq_or_ne s [] with hs | hs
  · subst hs
    rw [appendEntriesLog_nil p log hp, appendEntriesLog_nil p log hp]
  · exact appendEntriesLog_stable p s _ (appendEntriesLog_length p s log hp)
      (List.length_pos.mpr hs) (appendEntriesLog_last_term p s log hp hs)

/-- Entries strictly below the prefix are never touched by `appendEntriesLog`. -/
theorem appendEntriesLog_prefix_getD (p : Nat) (s log : List Entry) (hp : p ≤ log.length)
    (i : Nat) (hi : i < p) :
    (appendEntriesLog p s log).getD i default = log.getD i default := by
  have aux : ∀ l1 : List Entry, p ≤ l1.length → (∀ j, j < p → l1[j]? = log[j]?) →
      ((if l1.length < p + s.length then l1 ++ s.drop (l1.length - p) else l1).getD i default =
        log.getD i default) := by
    intro l1 h1 h2
    split
    · rw [List.getD_eq_getElem?_getD, List.getElem?_append_left (by omega), h2 i hi,
        ← List.getD_eq_getElem?_getD]
    · rw [List.getD_eq_getElem?_getD, h2 i hi, ← List.getD_eq_getElem?_getD]
  simp only [appendEntriesLog]
  split
  · split
    · exact aux _ (by rw [List.length_take]; omega)
        (fun j hj => by rw [List.getElem?_take, if_pos (show j < p from hj)])
    · exact aux log hp (fun j hj => rfl)
  · exact aux log hp (fun j hj => rfl)

/-- The `logOk` check implies the prefix fits the log. -/
theorem logOkB_le (log : List Entry) (p pt : Nat) (h : logOkB log p pt = true) :
    p ≤ log.length := by
  simp only [logOkB, Bool.and_eq_true, decide_eq_true_eq] at h
  exact h.1

/-- `logOk` survives an accepted `appendEntriesLog` for the same request. -/
theorem logOkB_appendEntriesLog (p pt : Nat) (s log : List Entry)
    (h : logOkB log p pt = true) : logOkB (appendEntriesLog p s log) p pt = true := by
  have hp := logOkB_le log p pt h
  simp only [logOkB, Bool.and_eq_true, Bool.or_eq_true, decide_eq_true_eq] at h ⊢
  obtain ⟨h1, h2⟩ := h
  constructor
  · have := appendEntriesLog_length p s log hp
    omega
  · by_cases hp0 : p = 0
    · left; exact hp0
    · right
      rcases h2 with h2 | h2
      · exact absurd h2 hp0
      · rw [appendEntriesLog_prefix_getD p s log hp (p - 1) (by omega)]
        exact h2

/-- Claim C8: delivering the same `LogRequest` — identical `(term, prefixLen,
prefixTerm, suffix)` — a second time is a no-op on the follower's
`(currentTerm, log)` pair: whether the first delivery was accepted (truncating
and/or appending) or rejected, the second delivery changes nothing. -/
theorem C8_log_request_idempotent (ct : Nat) (log : List Entry) (term prefix_len prefix_term : Nat)
    (suffix : List Entry) :
    hlrTermLog term prefix_len prefix_term suffix
        (hlrTermLog term prefix_len prefix_term suffix (ct, log)) =
      hlrTermLog term prefix_len prefix_term suffix (ct, log) := by
  have hct : ∀ a b : Nat, ¬ ((if a < b then b else a) < b) := by
    intro a b
    split <;> omega
  simp only [hlrTermLog]
  by_cases hacc : term = (if ct < term then term else ct) ∧ logOkB log prefix_len prefix_term = true
  · rw [if_pos hacc]
    dsimp only
    rw [if_neg (hct ct term)]
    rw [if_pos (⟨hacc.1, logOkB_appendEntriesLog prefix_len prefix_term suffix log hacc.2⟩ :
      term = (if ct < term then term else ct) ∧
        logOkB (appendEntriesLog prefix_len suffix log) prefix_len prefix_term = true)]
    rw [appendEntriesLog_idem prefix_len suffix log (logOkB_le log prefix_len prefix_term hacc.2)]
  · rw [if_neg hacc]
    dsimp only
    rw [if_neg (hct ct term)]
    rw [if_neg hacc]

/- ### Claim C6: amended theorem -/

/-- Splitting the `append_entries` metadata string recovers its ten tokens. -/
theorem pySplit_writeMetadataAE (cl t v : Nat) :
    pySplit (writeMetadataAE cl t (some v)) =
      [['C','o','m','m','i','t'], ['l','e','n','g','t','h'], natToChars cl,
       ['T','e','r','m'], natToChars t, ['N','o','d','e'], ['V','o','t','e','d'],
       ['F','o','r'], ['I','D'], natToChars v] := by
  have h1 : writeMetadataAE cl t (some v) =
      ['C','o','m','m','i','t'] ++ ' ' :: (['l','e','n','g','t','h'] ++ ' ' ::
        (natToChars cl ++ ' ' :: (['T','e','r','m'] ++ ' ' :: (natToChars t ++ ' ' ::
        (['N','o','d','e'] ++ ' ' :: (['V','o','t','e','d'] ++ ' ' ::
        (['F','o','r'] ++ ' ' :: (['I','D'] ++ ' ' :: natToChars v)))))))) := by
    simp [writeMetadataAE, optToChars]
  rw [h1]
  rw [pySplit_token_append _ _ (by decide)]
  rw [pySplit_token_append _ _ (by decide)]
  rw [pySplit_token_append _ _ (natToChars_ne_space cl)]
  rw [pySplit_token_append _ _ (by decide)]
  rw [pySplit_token_append _ _ (natToChars_ne_space t)]
  rw [pySplit_token_append _ _ (by decide)]
  rw [pySplit_token_append _ _ (by decide)]
  rw [pySplit_token_append _ _ (by decide)]
  rw [pySplit_token_append _ _ (by decide)]
  rw [pySplit_no_space _ (natToChars_ne_space v)]

/-- Splitting the `commit_log_entries` metadata string recovers its eight
tokens. -/
theorem pySplit_writeMetadataCLE (cl t v : Nat) :
    pySplit (writeMetadataCLE cl t (some v)) =
      [['C','o','m','m','i','t'], ['l','e','n','g','t','h'], natToChars cl,
       ['T','e','r','m'], natToChars t, ['N','o','d','e'], ['I','D'], natToChars v] := by
  have h1 : writeMetadataCLE cl t (some v) =
      ['C','o','m','m','i','t'] ++ ' ' :: (['l','e','n','g','t','h'] ++ ' ' ::
        (natToChars cl ++ ' ' :: (['T','e','r','m'] ++ ' ' :: (natToChars t ++ ' ' ::
        (['N','o','d','e'] ++ ' ' :: (['I','D'] ++ ' ' :: natToChars v)))))) := by
    simp [writeMetadataCLE, optToChars]
  rw [h1]
  rw [pySplit_token_append _ _ (by decide)]
  rw [pySplit_token_append _ _ (by decide)]
  rw [pySplit_token_append _ _ (natToChars_ne_space cl)]
  rw [pySplit_token_append _ _ (by decide)]
  rw [pySplit_token_append _ _ (natToChars_ne_space t)]
  rw [pySplit_token_append _ _ (by decide)]
  rw [pySplit_token_append _ _ (by decide)]
  rw [pySplit_no_space _ (natToChars_ne_space v)]

/-- The restart parser inverts the `append_entries` metadata write for every
integer `votedFor`. -/
theorem readMetadata_writeAE (cl t v : Nat) :
    readMetadata (writeMetadataAE cl t (some v)) = some (cl, t, v) := by
  unfold readMetadata
  rw [pySplit_writeMetadataAE]
  simp [pyInt?_natToChars]

/-- The restart parser inverts the `commit_log_entries` metadata write for
every integer `votedFor`. -/
theorem readMetadata_writeCLE (cl t v : Nat) :
    readMetadata (writeMetadataCLE cl t (some v)) = some (cl, t, v) := by
  unfold readMetadata
  rw [pySplit_writeMetadataCLE]
  simp [pyInt?_natToChars]

/-- Claim C6 (amended): for every integer `votedFor`, writing the metadata
file in either format (`append_entries`'s or `commit_log_entries`'s) and
parsing it back on restart recovers exactly the `(commitLength, currentTerm,
votedFor)` triple, and a full `restarting_node` run restores the triple into
the rebooted state.  (`votedFor = none` fails instead; see the
counterexample.) -/
theorem C6_metadata_roundtrip (cl t v : Nat) :
    readMetadata (writeMetadataAE cl t (some v)) = some (cl, t, v) ∧
    readMetadata (writeMetadataCLE cl t (some v)) = some (cl, t, v) ∧
    (restarting_node 0 [1, 2] (writeMetadataAE cl t (some v)) []).toOption.map
        (fun st => (st.current_term, st.voted_for, st.commit_length)) = some (t, some v, cl) := by
  refine ⟨readMetadata_writeAE cl t v, readMetadata_writeCLE cl t v, ?_⟩
  unfold restarting_node
  rw [readMetadata_writeAE]
  rfl

end Raft
